import Mathlib

/-!
Verification of the pasteVector clipboard negotiation pipeline.

This file is a shallow embedding, in Lean 4, of the core of
`src/extension.ts` (pasteVector): template expansion, markdown image
formatting, the process-runner result model, clipboard backend
selection, the Linux handler registry with its priority search, the
conversion routines (passthrough write, gunzip fallback, EMF-to-SVG via
the external tool), the WSL Windows-clipboard bridge, and the paste
command orchestration.

Modelling conventions:
- Machine effects (spawned subprocesses, the zlib library, the
  PowerShell script running on the Windows side) are external to the
  program; they are modelled as oracle fields of an `Env` record: the
  program's own logic over those oracle answers is translated verbatim.
- The filesystem is an association list from paths to byte lists,
  threaded explicitly; `fs.writeFile` prepends, `fs.stat` looks up.
- JavaScript strings are Lean `String`; the regexes of the source are
  translated into explicit scanners over `List Char` with the same
  match semantics (documented at each definition).
- Fallible code returns `Except String`; promise resolution with a
  synthetic result (never rejecting) is a total function.
-/

/-- JavaScript whitespace class: the character set matched by `/\s/` and
trimmed by `String.prototype.trim` (ASCII whitespace, NBSP, Unicode
space separators, line/paragraph separators, BOM). -/
def jsIsSpace (c : Char) : Bool :=
  let n := c.toNat
  n = 0x20 || n = 0x09 || n = 0x0a || n = 0x0b || n = 0x0c || n = 0x0d ||
  n = 0xa0 || n = 0x1680 || (0x2000 ≤ n && n ≤ 0x200a) ||
  n = 0x2028 || n = 0x2029 || n = 0x202f || n = 0x205f || n = 0x3000 || n = 0xfeff

/-- JavaScript `s.trim()`: drop leading and trailing whitespace characters. -/
def jsTrimList (l : List Char) : List Char :=
  ((l.dropWhile jsIsSpace).reverse.dropWhile jsIsSpace).reverse

/-- JavaScript `s.trim()` on `String`. -/
def jsTrim (s : String) : String := String.mk (jsTrimList s.data)

/-- JavaScript `/\s/.test(s)`: does the string contain a whitespace character. -/
def containsWs (s : String) : Bool := s.data.any jsIsSpace

/-- Does the character list start with the given pattern. -/
def startsWithL : List Char → List Char → Bool
  | _, [] => true
  | [], _ :: _ => false
  | c :: cs, p :: ps => c = p && startsWithL cs ps

/-- Does the haystack contain the pattern as a contiguous sublist. -/
def containsSub (hay pat : List Char) : Bool :=
  match hay with
  | [] => startsWithL [] pat
  | _ :: rest => startsWithL hay pat || containsSub rest pat

/-- Lower-case a character (ASCII, as used by the case-insensitive regexes). -/
def lcChar (c : Char) : Char := c.toLower

/-- Split a character list at its first closing brace: `some (name, after)`
when a closing brace exists, with `name` the characters before it and
`after` those following it; `none` otherwise.  This is exactly the shape
of a (greedy) `([^}]+)\}` match attempt: the run of non-brace characters
is delimited by the first closing brace. -/
def braceSplit : List Char → Option (List Char × List Char)
  | [] => none
  | c :: rest =>
    if c = '\x7d' then some ([], rest)
    else (braceSplit rest).map (fun p => (c :: p.1, p.2))

lemma braceSplit_length_lt :
    ∀ (l name after : List Char), braceSplit l = some (name, after) → after.length < l.length := by
  intro l
  induction l with
  | nil => intro name after h; simp [braceSplit] at h
  | cons c rest ih =>
    intro name after h
    by_cases hc : c = '\x7d'
    · simp [braceSplit, hc] at h
      simp [← h.2]
    · simp only [braceSplit, hc, if_false] at h
      cases hb : braceSplit rest with
      | none => rw [hb] at h; simp at h
      | some p =>
        rw [hb] at h
        simp at h
        have := ih p.1 p.2 (by rw [hb])
        simp [← h.2]
        omega

/-- Template expansion scanner: the embedding of
`tpl.replace(/\$\{([^}]+)\}/g, (_, k) => vars[k] ?? "")` from
`expandTemplate` (src/extension.ts:38-40).  At each position, a match
requires a dollar, an opening brace, at least one non-closing-brace
character, then the closing brace; the name (delimited by the first
closing brace, as the greedy `[^}]+` cannot cross one) is looked up in
the map, an unbound name yielding the empty string.  A position with no
match emits one character and the scan resumes at the next position,
exactly as the global regex replace does.  The scan is written with
explicit fuel (structurally recursive, so it evaluates inside the
kernel); the fuel is initialised to the input length, which
`expandFuel_congr` below shows is always sufficient. -/
def expandFuel (vars : String → Option String) : Nat → List Char → List Char
  | 0, l => l
  | _ + 1, [] => []
  | fuel + 1, c :: rest =>
    if c = '\x24' then
      match rest with
      | [] => c :: expandFuel vars fuel []
      | d :: rest' =>
        if d = '\x7b' then
          match braceSplit rest' with
          | some (n :: ns, after) =>
            ((vars (String.mk (n :: ns))).getD ("")).data ++ expandFuel vars fuel after
          | _ => c :: expandFuel vars fuel (d :: rest')
        else c :: expandFuel vars fuel (d :: rest')
    else c :: expandFuel vars fuel rest

/-- The template expansion scan, fuelled by the input length. -/
def expandL (vars : String → Option String) (l : List Char) : List Char :=
  expandFuel vars l.length l

lemma expandFuel_congr (vars : String → Option String) :
    ∀ (fuel₁ fuel₂ : Nat) (l : List Char), l.length ≤ fuel₁ → l.length ≤ fuel₂ →
      expandFuel vars fuel₁ l = expandFuel vars fuel₂ l := by
  intro fuel₁
  induction fuel₁ with
  | zero =>
    intro fuel₂ l h1 _
    have : l = [] := List.length_eq_zero.mp (Nat.le_zero.mp h1)
    subst this
    cases fuel₂ <;> rfl
  | succ f ih =>
    intro fuel₂ l h1 h2
    cases l with
    | nil => cases fuel₂ <;> rfl
    | cons c rest =>
      cases fuel₂ with
      | zero => simp at h2
      | succ f₂ =>
        simp only [List.length_cons] at h1 h2
        simp only [expandFuel]
        by_cases hc : c = '\x24'
        · simp only [hc, if_pos rfl]
          cases rest with
          | nil => simp [ih f₂ [] (by omega) (by omega)]
          | cons d rest' =>
            simp only [List.length_cons] at h1 h2
            by_cases hd : d = '\x7b'
            · simp only [hd, if_pos rfl]
              cases hb : braceSplit rest' with
              | none => simp [hb, ih f₂ ('\x7b' :: rest') (by simp; omega) (by simp; omega)]
              | some p =>
                obtain ⟨name, after⟩ := p
                cases name with
                | nil => simp [hb, ih f₂ ('\x7b' :: rest') (by simp; omega) (by simp; omega)]
                | cons n ns =>
                  have hlt := braceSplit_length_lt rest' (n :: ns) after hb
                  simp [hb, ih f₂ after (by omega) (by omega)]
            · simp [hd, ih f₂ (d :: rest') (by simp; omega) (by simp; omega)]
        · simp [hc, ih f₂ rest (by omega) (by omega)]

/-- Embedding of `expandTemplate(tpl, vars)` (src/extension.ts:38-40);
the variable record is an optional-valued map from names to values. -/
def expandTemplate (tpl : String) (vars : String → Option String) : String :=
  String.mk (expandL vars tpl.data)

/-- Is the character in the class `[\r\n\t]` of `escapeAltText`. -/
def isNlChar (c : Char) : Bool := c = '\x0d' || c = '\x0a' || c = '\x09'

/-- Scanner for `s.replace(/[\r\n\t]+/g, " ")`: each maximal run of
carriage returns, line feeds and tabs becomes a single space.  The
boolean argument records whether the previous character was part of
such a run (so the run emits only one space). -/
def collapseNl : List Char → Bool → List Char
  | [], _ => []
  | c :: rest, prevIn =>
    if isNlChar c then
      if prevIn then collapseNl rest true else ' ' :: collapseNl rest true
    else c :: collapseNl rest false

/-- Scanner for `s.replace(/]/g, "\\]")`: each closing bracket is
replaced by a backslash followed by the bracket. -/
def escBr : List Char → List Char
  | [] => []
  | c :: rest => if c = ']' then '\\' :: ']' :: escBr rest else c :: escBr rest

/-- Embedding of `escapeAltText` (src/extension.ts:44-46). -/
def escapeAltText (s : String) : String := String.mk (escBr (collapseNl s.data false))

/-- Embedding of `mdImage(rel, altText)` (src/extension.ts:47-50): trim
the alt text; an empty result produces a bare image link, otherwise the
escaped alt text is placed between the brackets. -/
def mdImage (rel : String) (altText : String) : String :=
  let alt := jsTrim altText
  if alt = "" then ("![](" ++ rel ++ ")") else ("![" ++ escapeAltText alt ++ "](" ++ rel ++ ")")

/-- Timeout for clipboard format listing (src/extension.ts:23). -/
def T_LIST_MS : Nat := 1200
/-- Timeout for clipboard raw reads (src/extension.ts:24). -/
def T_READ_MS : Nat := 6000
/-- Timeout for the external vector conversion (src/extension.ts:25). -/
def T_CONVERT_MS : Nat := 45000
/-- Timeout for the Windows clipboard bridge round trip (src/extension.ts:26). -/
def T_WINCLIP_MS : Nat := 12000

/-- How a spawned text-mode subprocess settles its promise: a close event
with an exit code (`none` when the process was terminated by a signal),
our own timeout firing first, or a spawn error.  In the latter two cases
the event carries the stdout/stderr captured up to that moment. -/
inductive TextEvent where
  | closed (code : Option Int) (stdout : String) (stderr : String)
  | timedOut (stdout : String) (stderr : String)
  | spawnFailed (msg : String) (stdout : String) (stderr : String)

/-- Result shape of `runText` (src/extension.ts:86-116). -/
structure TextResult where
  code : Option Int
  stdout : String
  stderr : String
deriving DecidableEq

/-- Embedding of `runText(cmd, args, timeoutMs)` (src/extension.ts:86-116):
the promise always resolves; on the timer firing the process is killed
and a synthetic exit code `-1` is returned with the timeout noted in the
diagnostics; on a spawn error likewise with the error text.  The command
and arguments do not influence the settled value, which is determined by
the subprocess event. -/
def runText (_cmd : String) (_args : List String) (timeoutMs : Nat) : TextEvent → TextResult
  | .closed code out err => ⟨code, out, err⟩
  | .timedOut out err => ⟨some (-1), out, err ++ "\n[TIMEOUT " ++ toString timeoutMs ++ "ms]"⟩
  | .spawnFailed msg out err => ⟨some (-1), out, err ++ "\n[SPAWN ERROR] " ++ msg⟩

/-- How a spawned binary-mode subprocess settles its promise. -/
inductive BinEvent where
  | closed (code : Option Int) (bytes : List Nat) (stderr : String)
  | timedOut (bytes : List Nat) (stderr : String)
  | spawnFailed (msg : String) (bytes : List Nat) (stderr : String)

/-- Result shape of `runBin` (src/extension.ts:118-151). -/
structure BinResult where
  code : Option Int
  bytes : List Nat
  stderr : String
deriving DecidableEq

/-- Embedding of `runBin(cmd, args, timeoutMs)` (src/extension.ts:118-151);
same settlement discipline as `runText` but the captured stdout is the
concatenation of the raw chunks received before the settling event. -/
def runBin (_cmd : String) (_args : List String) (timeoutMs : Nat) : BinEvent → BinResult
  | .closed code bytes err => ⟨code, bytes, err⟩
  | .timedOut bytes err => ⟨some (-1), bytes, err ++ "\n[TIMEOUT " ++ toString timeoutMs ++ "ms]"⟩
  | .spawnFailed msg bytes err => ⟨some (-1), bytes, err ++ "\n[SPAWN ERROR] " ++ msg⟩

/-- Clipboard access mechanisms (src/extension.ts:20). -/
inductive BackendKind where
  | wayland
  | x11
deriving DecidableEq

/-- Backend preference configuration values (src/extension.ts:524). -/
inductive Prefer where
  | auto
  | wayland
  | x11
deriving DecidableEq

/-- An offered clipboard format: raw identifier and its base used for
matching (src/extension.ts:21). -/
structure OfferedType where
  raw : String
  base : String
deriving DecidableEq

/-- The filesystem model: an association list from absolute paths to file
contents (byte lists); a write prepends, a lookup finds the most recent
write.  Directories are not modelled (`ensureDir` always succeeds). -/
abbrev Fs := List (String × List Nat)

/-- Write a file (the effect of `fs.writeFile`). -/
def Fs.write (fs : Fs) (p : String) (bs : List Nat) : Fs := (p, bs) :: fs

/-- Look up a file's bytes. -/
def Fs.lookup : Fs → String → Option (List Nat)
  | [], _ => none
  | (q, bs) :: rest, p => if q = p then some bs else Fs.lookup rest p

/-- Result shape of `statSafe` (src/extension.ts:55-62); `found` is the
source's `exists` field. -/
structure StatInfo where
  found : Bool
  size : Nat
deriving DecidableEq

/-- Embedding of `statSafe(p)` (src/extension.ts:55-62): stat that never
throws, reporting existence and size. -/
def statSafe (fs : Fs) (p : String) : StatInfo :=
  match fs.lookup p with
  | some bs => ⟨true, bs.length⟩
  | none => ⟨false, 0⟩

/-- Embedding of `writeBytes(outAbs, bytes)` (src/extension.ts:63-68):
write the bytes, then re-stat the path and throw when the file is
missing or empty after the write. -/
def writeBytes (fs : Fs) (outAbs : String) (bytes : List Nat) : Except String Fs :=
  let fs' := fs.write outAbs bytes
  let st := statSafe fs' outAbs
  if st.found = false ∨ st.size = 0 then .error ("Output file missing/empty after write.")
  else .ok fs'

/-- Truthiness of an environment variable as JavaScript's `!!` sees it:
present and non-empty. -/
def envTruthy : Option String → Bool
  | none => false
  | some s => s != ""

/-- The environment of one paste invocation.  Everything the program
reads from outside its own logic lives here: environment variables, the
(memoized) command-existence probe, and one oracle per external effect —
the settling event of each subprocess invocation, the zlib gunzip
library call, the bytes the external EMF converter writes to its output
path, the files the PowerShell bridge script writes, the `wslpath`
translation, the temp-file names produced from `os.tmpdir()` and
`nonce()`, and the configuration values read from the editor. -/
structure Env where
  waylandDisplayVar : Option String
  wslDistroName : Option String
  wslInterop : Option String
  commandExists : String → Bool
  listEv : BackendKind → TextEvent
  readEv : BackendKind → String → BinEvent
  gunzip : List Nat → Except String (List Nat)
  convEv : TextEvent
  convWrites : Option (List Nat)
  psEv : TextEvent
  psWrites : List (String × List Nat)
  wslpathOf : String → Option String
  tmpEmfLinux : String
  tmpEmfWsl : String
  preferBackend : Prefer
  destinationTemplate : String
  docDir : String
  docBase : String
  unixTime : String

/-- Embedding of `isWSL()` (src/extension.ts:313-315). -/
def isWSL (env : Env) : Bool :=
  envTruthy env.wslDistroName || envTruthy env.wslInterop

/-- Embedding of `getBackends(prefer)` (src/extension.ts:237-244): Wayland
is usable only when the session marker is truthy AND `wl-paste` resolves;
X11 only needs `xclip`; the preference picks the order and unusable
entries are filtered out. -/
def getBackends (env : Env) (prefer : Prefer) : List BackendKind :=
  let hasWayland := envTruthy env.waylandDisplayVar && env.commandExists ("wl-paste")
  let hasX11 := env.commandExists ("xclip")
  let w : Option BackendKind := if hasWayland then some .wayland else none
  let x : Option BackendKind := if hasX11 then some .x11 else none
  let list := match prefer with
    | .wayland => [w, x]
    | .x11 => [x, w]
    | .auto => [w, x]
  list.filterMap id

/-- Embedding of `pickFirst(offered, bases)` (src/extension.ts:246-252):
walk the handler's base list in order and return the first offered type
whose base equals the current candidate. -/
def pickFirst (offered : List OfferedType) : List String → Option OfferedType
  | [] => none
  | b :: rest =>
    match offered.find? (fun t => t.base = b) with
    | some hit => some hit
    | none => pickFirst offered rest

/-- Embedding of `maybeGunzip(buf)` (src/extension.ts:185-187): call the
zlib gunzip library (here an explicit function argument, as the library
is external to the program) and resolve with its output, falling back to
the original buffer when the library reports an error.  The return type
is not fallible: the promise always resolves and never rejects. -/
def maybeGunzip (gunzip : List Nat → Except String (List Nat)) (buf : List Nat) : List Nat :=
  match gunzip buf with
  | .error _ => buf
  | .ok out => out

/-- Join strings with newlines (the `.join("\n")` of the diagnostics). -/
def joinWithNl : List String → String
  | [] => ""
  | [s] => s
  | s :: rest => s ++ "\n" ++ joinWithNl rest

/-- The `[r.stderr?.trim(), r.stdout?.trim()].filter(Boolean).join("\n")`
diagnostic detail used by `emfPathToSvg` and the bridge. -/
def joinDetails (r : TextResult) : String :=
  joinWithNl (([jsTrim r.stderr, jsTrim r.stdout]).filter (fun s => s != ""))

/-- Embedding of `emfPathToSvg(inEmfAbs, outSvgAbs)` (src/extension.ts:191-201):
fail when `emf2svg-conv` is not on the search path; otherwise run the
converter (whose effect on the output path is the `convWrites` oracle),
re-stat the output and fail when it is missing or empty, attaching the
converter's captured output to the diagnostic. -/
def emfPathToSvg (env : Env) (inEmfAbs outSvgAbs : String) (fs : Fs) : Except String Fs :=
  if env.commandExists ("emf2svg-conv") = false then .error ("emf2svg-conv not found in PATH.")
  else
    let r := runText ("emf2svg-conv") (["-i", inEmfAbs, "-o", outSvgAbs, "-p"]) T_CONVERT_MS env.convEv
    let fs' := match env.convWrites with
      | some bs => fs.write outSvgAbs bs
      | none => fs
    let st := statSafe fs' outSvgAbs
    if st.found = false ∨ st.size = 0 then
      .error (jsTrim ("emf2svg-conv produced no output.\n" ++ joinDetails r))
    else .ok fs'

/-- A registered Linux clipboard handler (src/extension.ts:254-259): a
name, an output extension, the ordered base-identifier match list, and
the conversion routine run on the bytes read for the matched type. -/
structure LinuxHandler where
  name : String
  ext : String
  bases : List String
  run : Env → List Nat → String → Fs → Except String Fs

/-- The `svg` handler (src/extension.ts:262-267): passthrough write. -/
def svgHandler : LinuxHandler :=
  ⟨"svg", "svg", ["image/svg+xml", "image/x-inkscape-svg"],
    fun _env b out fs => writeBytes fs out b⟩

/-- The `svgz` handler (src/extension.ts:268-273): gunzip then write. -/
def svgzHandler : LinuxHandler :=
  ⟨"svgz", "svg", ["image/svg+xml-compressed", "image/x-inkscape-svg-compressed"],
    fun env b out fs => writeBytes fs out (maybeGunzip env.gunzip b)⟩

/-- The `emf` handler (src/extension.ts:274-283): write the bytes to a
temp file, then convert with the external tool. -/
def emfHandler : LinuxHandler :=
  ⟨"emf", "svg", ["WCF_ENHMETAFILE", "image/x-emf", "image/emf"],
    fun env b out fs => emfPathToSvg env env.tmpEmfLinux out (fs.write env.tmpEmfLinux b)⟩

/-- The `png` handler (src/extension.ts:284): passthrough write. -/
def pngHandler : LinuxHandler :=
  ⟨"png", "png", ["image/png", "image/x-png"], fun _env b out fs => writeBytes fs out b⟩

/-- The `jpg` handler (src/extension.ts:285): passthrough write. -/
def jpgHandler : LinuxHandler :=
  ⟨"jpg", "jpg", ["image/jpeg"], fun _env b out fs => writeBytes fs out b⟩

/-- The fixed handler registry in priority order (src/extension.ts:261-286). -/
def LINUX_HANDLERS : List LinuxHandler :=
  [svgHandler, svgzHandler, emfHandler, pngHandler, jpgHandler]

/-- Split a character list on a separator character (every occurrence). -/
def splitChar (sep : Char) : List Char → List (List Char)
  | [] => [[]]
  | c :: rest =>
    let r := splitChar sep rest
    if c = sep then [] :: r else (c :: r.headD []) :: r.tail

/-- Split on `/\r?\n/`: split on line feeds, then strip one carriage
return left at the end of a piece (it belonged to the separator). -/
def splitLinesJs (s : String) : List String :=
  (splitChar '\x0a' s.data).map (fun l =>
    String.mk (if l.getLast? = some '\x0d' then l.dropLast else l))

/-- Everything before the first semicolon of a raw type, as
`raw.split(";")[0]` computes it. -/
def beforeSemi (raw : String) : String := String.mk (raw.data.takeWhile (fun c => c != ';'))

/-- The command each backend uses to list offered types. -/
def listCmd : BackendKind → String
  | .wayland => "wl-paste"
  | .x11 => "xclip"

/-- The argument list each backend uses to list offered types. -/
def listArgs : BackendKind → List String
  | .wayland => ["--list-types"]
  | .x11 => ["-selection", "clipboard", "-o", "-t", "TARGETS"]

/-- Embedding of `ClipboardBackend.listTypes()` (src/extension.ts:208-224):
run the list command, split its stdout into trimmed non-empty lines, and
build offered types — on Wayland the base is the raw type up to the
first semicolon parameter, trimmed; on X11 raw and base coincide. -/
def listTypes (env : Env) (bk : BackendKind) : List OfferedType :=
  let r := runText (listCmd bk) (listArgs bk) T_LIST_MS (env.listEv bk)
  let lines := ((splitLinesJs r.stdout).map jsTrim).filter (fun s => s != "")
  match bk with
  | .wayland => lines.map (fun raw => ⟨raw, jsTrim (beforeSemi raw)⟩)
  | .x11 => lines.map (fun raw => ⟨raw, raw⟩)

/-- The command each backend uses to read a type's bytes. -/
def readCmd : BackendKind → String
  | .wayland => "wl-paste"
  | .x11 => "xclip"

/-- The argument list each backend uses to read a type's bytes. -/
def readArgs (bk : BackendKind) (rawType : String) : List String :=
  match bk with
  | .wayland => ["-t", rawType]
  | .x11 => ["-selection", "clipboard", "-o", "-t", rawType]

/-- Embedding of `ClipboardBackend.readType(rawType)` (src/extension.ts:226-234):
run the read command and fail when the process did not exit with code
zero or produced zero bytes; otherwise return exactly the bytes. -/
def readType (env : Env) (bk : BackendKind) (rawType : String) : Except String (List Nat) :=
  let r := runBin (readCmd bk) (readArgs bk rawType) T_READ_MS (env.readEv bk rawType)
  if r.code ≠ some 0 ∨ r.bytes = [] then .error ("Clipboard read failed (" ++ rawType ++ ").")
  else .ok r.bytes

/-- Whether an `Except` is an error. -/
def isError {ε α : Type} : Except ε α → Bool
  | .error _ => true
  | .ok _ => false

/-- The handler-resolution logic of the loop in `tryLinuxClipboard`
(src/extension.ts:295-297), named `resolveHandler` as in the design
notes: iterate the registry in order and return the first handler whose
`pickFirst` finds an offered type, together with that type. -/
def resolveHandler : List LinuxHandler → List OfferedType → Option (LinuxHandler × OfferedType)
  | [], _ => none
  | h :: rest, offered =>
    match pickFirst offered h.bases with
    | some t => some (h, t)
    | none => resolveHandler rest offered

/-- Name of a backend kind as interpolated into `usedType`. -/
def backendName : BackendKind → String
  | .wayland => "wayland"
  | .x11 => "x11"

/-- The variable record passed to `expandTemplate` by `makeOutAbs`
(src/extension.ts:535-538). -/
def varsFor (env : Env) (ext : String) : String → Option String := fun k =>
  if k = "documentBaseName" then some env.docBase
  else if k = "unixTime" then some env.unixTime
  else if k = "fileExtName" then some ext
  else none

/-- Simplified POSIX `path.join(docDir, outRel)`: concatenation with a
separator (dot-segment normalization is not modelled — no claim in this
development depends on it). -/
def pathJoin (a b : String) : String := a ++ "/" ++ b

/-- Embedding of the `makeOutAbs` closure (src/extension.ts:535-538). -/
def makeOutAbs (env : Env) (ext : String) : String :=
  pathJoin env.docDir (expandTemplate env.destinationTemplate (varsFor env ext))

/-- A successful conversion outcome (`{ outAbs, handler, usedType }`). -/
structure LinuxResult where
  outAbs : String
  handler : String
  usedType : String
deriving DecidableEq

/-- The inner handler loop of `tryLinuxClipboard` (src/extension.ts:295-306)
for one backend: for each handler in order, skip it when `pickFirst`
finds nothing; at the first match, read the bytes (a read failure throws
out of the whole loop), run the handler's conversion, re-stat the output
and throw on an empty result, otherwise return the outcome.  Note that
once a handler matches, the iteration never reaches later handlers: any
failure from this point is an exception that propagates to the caller. -/
def tryHandlers (env : Env) (bk : BackendKind) (offered : List OfferedType) (fs : Fs) :
    List LinuxHandler → Except String (Option LinuxResult × Fs)
  | [] => .ok (none, fs)
  | h :: rest =>
    match pickFirst offered h.bases with
    | none => tryHandlers env bk offered fs rest
    | some t =>
      match readType env bk t.raw with
      | .error e => .error e
      | .ok bytes =>
        match h.run env bytes (makeOutAbs env h.ext) fs with
        | .error e => .error e
        | .ok fs₁ =>
          let st := statSafe fs₁ (makeOutAbs env h.ext)
          if st.found = false ∨ st.size = 0 then
            .error ("Linux handler " ++ h.name ++ " produced empty output.")
          else
            .ok (some ⟨makeOutAbs env h.ext, "linux-" ++ h.name, backendName bk ++ "/" ++ t.base⟩, fs₁)

/-- The outer backend loop of `tryLinuxClipboard` (src/extension.ts:292-308):
list the backend's offered types, run the handler loop, return its
outcome on success, move to the next backend when no handler matched,
and let exceptions propagate. -/
def tryBackendsLoop (env : Env) : Fs → List BackendKind → Except String (Option LinuxResult × Fs)
  | fs, [] => .ok (none, fs)
  | fs, b :: rest =>
    match tryHandlers env b (listTypes env b) fs LINUX_HANDLERS with
    | .error e => .error e
    | .ok (some r, fs₁) => .ok (some r, fs₁)
    | .ok (none, fs₁) => tryBackendsLoop env fs₁ rest

/-- Embedding of `tryLinuxClipboard(prefer, makeOutAbs)`
(src/extension.ts:288-309). -/
def tryLinuxClipboard (env : Env) (prefer : Prefer) (fs : Fs) :
    Except String (Option LinuxResult × Fs) :=
  tryBackendsLoop env fs (getBackends env prefer)

/-- UTF-8 encoding of one character (the effect of `Buffer.from(s, "utf8")`). -/
def charUtf8 (c : Char) : List Nat :=
  let n := c.toNat
  if n < 0x80 then [n]
  else if n < 0x800 then [0xc0 + n / 64, 0x80 + n % 64]
  else if n < 0x10000 then [0xe0 + n / 4096, 0x80 + (n / 64) % 64, 0x80 + n % 64]
  else [0xf0 + n / 262144, 0x80 + (n / 4096) % 64, 0x80 + (n / 64) % 64, 0x80 + n % 64]

/-- UTF-8 encoding of a string. -/
def utf8Bytes (s : String) : List Nat := (s.data.map charUtf8).flatten

/-- Is the byte a UTF-8 continuation byte. -/
def contByte (b : Nat) : Bool := 0x80 ≤ b && b ≤ 0xbf

/-- Strict UTF-8 decoding (the decoder semantics of `decodeURIComponent`:
malformed input, overlong forms and surrogates are rejected). -/
def utf8DecodeStrictL : List Nat → Option (List Char)
  | [] => some []
  | b :: rest =>
    if b < 0x80 then (utf8DecodeStrictL rest).map (fun cs => Char.ofNat b :: cs)
    else if 0xc2 ≤ b ∧ b ≤ 0xdf then
      match rest with
      | c₁ :: rest' =>
        if contByte c₁ = true then
          (utf8DecodeStrictL rest').map (fun cs => Char.ofNat ((b - 0xc0) * 64 + (c₁ - 0x80)) :: cs)
        else none
      | [] => none
    else if 0xe0 ≤ b ∧ b ≤ 0xef then
      match rest with
      | c₁ :: c₂ :: rest' =>
        if contByte c₁ = true ∧ contByte c₂ = true ∧ (b = 0xe0 → 0xa0 ≤ c₁) ∧ (b = 0xed → c₁ ≤ 0x9f) then
          (utf8DecodeStrictL rest').map
            (fun cs => Char.ofNat ((b - 0xe0) * 4096 + (c₁ - 0x80) * 64 + (c₂ - 0x80)) :: cs)
        else none
      | _ => none
    else if 0xf0 ≤ b ∧ b ≤ 0xf4 then
      match rest with
      | c₁ :: c₂ :: c₃ :: rest' =>
        if contByte c₁ = true ∧ contByte c₂ = true ∧ contByte c₃ = true ∧
            (b = 0xf0 → 0x90 ≤ c₁) ∧ (b = 0xf4 → c₁ ≤ 0x8f) then
          (utf8DecodeStrictL rest').map
            (fun cs => Char.ofNat ((b - 0xf0) * 262144 + (c₁ - 0x80) * 4096 + (c₂ - 0x80) * 64 + (c₃ - 0x80)) :: cs)
        else none
      | _ => none
    else none
  termination_by l => l.length
  decreasing_by all_goals simp_arith

/-- Lenient UTF-8 decoding (the decoder semantics of
`Buffer.prototype.toString("utf8")`: malformed bytes become replacement
characters and decoding continues). -/
def utf8DecodeLenientL : List Nat → List Char
  | [] => []
  | b :: rest =>
    if b < 0x80 then Char.ofNat b :: utf8DecodeLenientL rest
    else if 0xc2 ≤ b ∧ b ≤ 0xdf then
      match rest with
      | c₁ :: rest' =>
        if contByte c₁ = true then Char.ofNat ((b - 0xc0) * 64 + (c₁ - 0x80)) :: utf8DecodeLenientL rest'
        else '�' :: utf8DecodeLenientL (c₁ :: rest')
      | [] => ['�']
    else if 0xe0 ≤ b ∧ b ≤ 0xef then
      match rest with
      | c₁ :: c₂ :: rest' =>
        if contByte c₁ = true ∧ contByte c₂ = true ∧ (b = 0xe0 → 0xa0 ≤ c₁) ∧ (b = 0xed → c₁ ≤ 0x9f) then
          Char.ofNat ((b - 0xe0) * 4096 + (c₁ - 0x80) * 64 + (c₂ - 0x80)) :: utf8DecodeLenientL rest'
        else '�' :: utf8DecodeLenientL (c₁ :: c₂ :: rest')
      | _ => ['�']
    else if 0xf0 ≤ b ∧ b ≤ 0xf4 then
      match rest with
      | c₁ :: c₂ :: c₃ :: rest' =>
        if contByte c₁ = true ∧ contByte c₂ = true ∧ contByte c₃ = true ∧
            (b = 0xf0 → 0x90 ≤ c₁) ∧ (b = 0xf4 → c₁ ≤ 0x8f) then
          Char.ofNat ((b - 0xf0) * 262144 + (c₁ - 0x80) * 4096 + (c₂ - 0x80) * 64 + (c₃ - 0x80)) ::
            utf8DecodeLenientL rest'
        else '�' :: utf8DecodeLenientL (c₁ :: c₂ :: c₃ :: rest')
      | _ => ['�']
    else '�' :: utf8DecodeLenientL rest
  termination_by l => l.length
  decreasing_by all_goals simp_arith

/-- Hexadecimal digit value. -/
def hexVal (c : Char) : Option Nat :=
  let n := c.toNat
  if 48 ≤ n ∧ n ≤ 57 then some (n - 48)
  else if 65 ≤ n ∧ n ≤ 70 then some (n - 55)
  else if 97 ≤ n ∧ n ≤ 102 then some (n - 87)
  else none

/-- Percent-decoding to bytes: each `%XX` becomes one byte, any other
character contributes its UTF-8 bytes; `none` on a malformed escape. -/
def pctBytes : List Char → Option (List Nat)
  | [] => some []
  | c :: rest =>
    if c = '%' then
      match rest with
      | h₁ :: h₂ :: rest' =>
        match hexVal h₁, hexVal h₂ with
        | some v₁, some v₂ => (pctBytes rest').map (fun bs => (v₁ * 16 + v₂) :: bs)
        | _, _ => none
      | _ => none
    else (pctBytes rest).map (fun bs => charUtf8 c ++ bs)
  termination_by l => l.length
  decreasing_by all_goals simp_arith

/-- The semantics of `decodeURIComponent`: percent-decode, then strictly
UTF-8 decode; `none` models the thrown `URIError`. -/
def percentDecode (s : String) : Option String :=
  (pctBytes s.data).bind (fun bs => (utf8DecodeStrictL bs).map String.mk)

/-- Base64 digit value (standard alphabet plus the URL-safe variants the
Node decoder also accepts). -/
def b64Val (c : Char) : Option Nat :=
  let n := c.toNat
  if 65 ≤ n ∧ n ≤ 90 then some (n - 65)
  else if 97 ≤ n ∧ n ≤ 122 then some (n - 71)
  else if 48 ≤ n ∧ n ≤ 57 then some (n + 4)
  else if c = '+' ∨ c = '-' then some 62
  else if c = '/' ∨ c = '_' then some 63
  else none

/-- Decode groups of base64 digit values into bytes (trailing groups of
two or three digits produce one or two bytes). -/
def b64Groups : List Nat → List Nat
  | a :: b :: c :: d :: rest =>
    (a * 4 + b / 16) :: ((b % 16) * 16 + c / 4) :: ((c % 4) * 64 + d) :: b64Groups rest
  | [a, b] => [a * 4 + b / 16]
  | [a, b, c] => [a * 4 + b / 16, (b % 16) * 16 + c / 4]
  | _ => []

/-- The forgiving `Buffer.from(data, "base64")`: non-alphabet characters
(including padding) are skipped, then the digit stream is decoded. -/
def base64Bytes (data : List Char) : List Nat := b64Groups (data.filterMap b64Val)

/-- Split at the first comma (`t.indexOf(",")`): `none` when there is no
comma, otherwise the parts before and after it. -/
def splitAtFirstComma : List Char → Option (List Char × List Char)
  | [] => none
  | c :: rest =>
    if c = ',' then some ([], rest)
    else (splitAtFirstComma rest).map (fun p => (c :: p.1, p.2))

/-- Does an `<svg` tag followed by whitespace or `>` start here — one
match attempt of `/<svg[\s>]/i`. -/
def svgOpenAt : List Char → Bool
  | c₀ :: c₁ :: c₂ :: c₃ :: c₄ :: _ =>
    c₀ = '<' && lcChar c₁ = 's' && lcChar c₂ = 'v' && lcChar c₃ = 'g' && (jsIsSpace c₄ || c₄ = '>')
  | _ => false

/-- Search for `/<svg[\s>]/i` anywhere in the text. -/
def hasSvgOpen : List Char → Bool
  | [] => false
  | c :: rest => svgOpenAt (c :: rest) || hasSvgOpen rest

/-- Does a closing `</svg>` tag start here — one match attempt of `/<\/svg>/i`. -/
def svgCloseAt : List Char → Bool
  | c₀ :: c₁ :: c₂ :: c₃ :: c₄ :: c₅ :: _ =>
    c₀ = '<' && c₁ = '/' && lcChar c₂ = 's' && lcChar c₃ = 'v' && lcChar c₄ = 'g' && c₅ = '>'
  | _ => false

/-- Search for `/<\/svg>/i` anywhere in the text. -/
def hasSvgClose : List Char → Bool
  | [] => false
  | c :: rest => svgCloseAt (c :: rest) || hasSvgClose rest

/-- Embedding of `looksLikeSvgText(s)` (src/extension.ts:155-160). -/
def looksLikeSvgText (s : String) : Bool :=
  let t := jsTrim s
  if t = "" then false
  else if startsWithL t.data (("data:image/svg+xml").data) then true
  else hasSvgOpen t.data && hasSvgClose t.data

/-- Embedding of `decodeSvgTextOrDataUri(s)` (src/extension.ts:162-178):
plain text passes through trimmed; a `data:image/svg+xml` URI is split
at its first comma and decoded according to the `;base64` marker, the
percent-decoder falling back to the raw data when it would throw. -/
def decodeSvgTextOrDataUri (s : String) : String :=
  let t := jsTrim s
  if startsWithL t.data (("data:image/svg+xml").data) = false then t
  else
    match splitAtFirstComma t.data with
    | none => t
    | some (meta, data) =>
      if containsSub (meta.map lcChar) ((";base64").data) then
        String.mk (utf8DecodeLenientL (base64Bytes data))
      else
        match percentDecode (String.mk data) with
        | some d => d
        | none => String.mk data

/-- Embedding of `writeSvgText(outSvgAbs, svgText)` (src/extension.ts:180-183). -/
def writeSvgText (fs : Fs) (outSvgAbs : String) (svgText : String) : Except String Fs :=
  writeBytes fs outSvgAbs (utf8Bytes (decodeSvgTextOrDataUri svgText))

/-- What the exit-code protocol of the bridge script reported was
written (src/extension.ts:329, 348-352). -/
inductive WslExportKind where
  | svg
  | emf
  | png
deriving DecidableEq

/-- The file a given bridge outcome corresponds to. -/
def wslKindPath (k : WslExportKind) (outSvgAbs outPngAbs tmpEmfAbs : String) : String :=
  match k with
  | .svg => outSvgAbs
  | .emf => tmpEmfAbs
  | .png => outPngAbs

/-- Embedding of `wslExportWindowsClipboard` (src/extension.ts:331-466):
bail out (null) unless inside WSL with `powershell.exe` and `wslpath`
available and all three path translations succeeding; then run the
bridge script (its writes are the `psWrites` oracle) and decode its exit
code — 12/10/11 report an SVG/EMF/PNG written, which is verified on disk
and demoted to null when missing or empty; 2 means nothing usable; any
other exit throws with the captured diagnostics. -/
def wslExportWindowsClipboard (env : Env) (outSvgAbs outPngAbs tmpEmfAbs : String) (fs : Fs) :
    Except String (Option WslExportKind × Fs) :=
  if isWSL env = false then .ok (none, fs)
  else if (env.commandExists ("powershell.exe") && env.commandExists ("wslpath")) = false then
    .ok (none, fs)
  else
    match env.wslpathOf outSvgAbs, env.wslpathOf outPngAbs, env.wslpathOf tmpEmfAbs with
    | some _, some _, some _ =>
      let r := runText ("powershell.exe") (["-NoProfile", "-STA", "-Command"]) T_WINCLIP_MS env.psEv
      let fs₁ := env.psWrites.foldl (fun acc pw => acc.write pw.1 pw.2) fs
      if r.code = some 12 then
        let st := statSafe fs₁ outSvgAbs
        if st.found = true ∧ 0 < st.size then .ok (some .svg, fs₁) else .ok (none, fs₁)
      else if r.code = some 10 then
        let st := statSafe fs₁ tmpEmfAbs
        if st.found = true ∧ 0 < st.size then .ok (some .emf, fs₁) else .ok (none, fs₁)
      else if r.code = some 11 then
        let st := statSafe fs₁ outPngAbs
        if st.found = true ∧ 0 < st.size then .ok (some .png, fs₁) else .ok (none, fs₁)
      else if r.code = some 2 then .ok (none, fs₁)
      else .error (jsTrim ("Windows clipboard export failed.\n" ++ joinDetails r))
    | _, _, _ => .ok (none, fs)

/-- Embedding of `tryWslWindowsClipboard(makeOutAbs)` (src/extension.ts:468-490). -/
def tryWslWindowsClipboard (env : Env) (fs : Fs) : Except String (Option LinuxResult × Fs) :=
  if isWSL env = false then .ok (none, fs)
  else
    let outSvgAbs := makeOutAbs env ("svg")
    let outPngAbs := makeOutAbs env ("png")
    let tmpEmfAbs := env.tmpEmfWsl
    match wslExportWindowsClipboard env outSvgAbs outPngAbs tmpEmfAbs fs with
    | .error e => .error e
    | .ok (none, fs₁) => .ok (none, fs₁)
    | .ok (some .svg, fs₁) => .ok (some ⟨outSvgAbs, "wsl-svg", "windows/svg"⟩, fs₁)
    | .ok (some .emf, fs₁) =>
      match emfPathToSvg env tmpEmfAbs outSvgAbs fs₁ with
      | .error e => .error e
      | .ok fs₂ => .ok (some ⟨outSvgAbs, "wsl-emf", "windows/emf"⟩, fs₂)
    | .ok (some .png, fs₁) => .ok (some ⟨outPngAbs, "wsl-png", "windows/png"⟩, fs₁)

/-- Which terminal action the paste command took. -/
inductive PasteResult where
  | svgText (outAbs : String)
  | earlyDefaultPaste
  | media (r : LinuxResult)
  | finalDefaultPaste
deriving DecidableEq

/-- The observable outcome of one run of the paste command: the terminal
action, the warnings logged by the catch blocks, whether the bridge
attempt (step 2) and the Linux attempt (step 3) were entered, and the
final filesystem.  On a caught exception the pre-attempt filesystem is
carried (the intermediate effects behind a thrown step are not claimed by any
property in this development). -/
structure PasteOutcome where
  result : PasteResult
  warnings : List String
  wslAttempted : Bool
  linuxAttempted : Bool
  fs : Fs
deriving DecidableEq

/-- Step 3 and step 4 of the command (src/extension.ts:591-610): the
Linux backend attempt with its catch block, then the final default
paste. -/
def pasteStep3 (env : Env) (fs : Fs) (warns : List String) : PasteOutcome :=
  match tryLinuxClipboard env env.preferBackend fs with
  | .ok (some r, fs₁) => ⟨.media r, warns, true, true, fs₁⟩
  | .ok (none, fs₁) => ⟨.finalDefaultPaste, warns, true, true, fs₁⟩
  | .error e => ⟨.finalDefaultPaste, warns ++ ["warn linux clipboard failed: " ++ e], true, true, fs⟩

/-- Steps 2 to 4 of the command (src/extension.ts:572-610): the WSL
bridge attempt with its catch block, then the Linux attempt. -/
def pasteSteps2to4 (env : Env) (fs : Fs) (warns : List String) : PasteOutcome :=
  match tryWslWindowsClipboard env fs with
  | .ok (some r, fs₁) => ⟨.media r, warns, true, false, fs₁⟩
  | .ok (none, fs₁) => pasteStep3 env fs₁ warns
  | .error e => pasteStep3 env fs (warns ++ ["warn wsl export failed: " ++ e])

/-- Step 1b of the command (src/extension.ts:565-570): when the trimmed
clipboard text is non-empty and contains whitespace, defer to the
editor's default paste immediately; otherwise continue to the media
steps. -/
def pasteStep1b (env : Env) (t : String) (fs : Fs) (warns : List String) : PasteOutcome :=
  if t ≠ "" ∧ containsWs t = true then ⟨.earlyDefaultPaste, warns, false, false, fs⟩
  else pasteSteps2to4 env fs warns

/-- The body of the `pasteVector.pasteVector` command for a markdown
editor (src/extension.ts:545-610), from the single clipboard text read
onward: step 1a handles SVG-as-text (falling through on failure), step
1b the whitespace text heuristic, then the media steps. -/
def pasteCommand (env : Env) (clipText : String) (fs : Fs) : PasteOutcome :=
  let t := jsTrim clipText
  if t ≠ "" ∧ looksLikeSvgText t = true then
    match writeSvgText fs (makeOutAbs env ("svg")) t with
    | .ok fs₁ => ⟨.svgText (makeOutAbs env ("svg")), [], false, false, fs₁⟩
    | .error e => pasteStep1b env t fs (["warn svg-text failed: " ++ e])
  else pasteStep1b env t fs []

/-- The base identifiers matched by the vector handlers (svg, svgz, emf). -/
def vectorBases : List String := svgHandler.bases ++ svgzHandler.bases ++ emfHandler.bases

/-- The base identifiers matched by the raster handlers (png, jpg). -/
def rasterBases : List String := pngHandler.bases ++ jpgHandler.bases

/-- Does the character list contain a carriage return, line feed or tab. -/
def hasBreakChar (l : List Char) : Bool := l.any isNlChar

/-- Every closing bracket in the list is immediately preceded by a
backslash. -/
def bracketsEscaped : List Char → Bool
  | [] => true
  | [c] => c ≠ ']'
  | c :: d :: rest =>
    if d = ']' then c = '\\' && bracketsEscaped rest
    else (c ≠ ']') && bracketsEscaped (d :: rest)

/-- The list does not start with a run character (used as the right
boundary condition of a maximal `[\r\n\t]+` run). -/
def headNotNl (rest : List Char) : Prop := ∀ c, rest.head? = some c → isNlChar c = false

/-- A constant variable map used by witnesses. -/
def varsConst : String → Option String := fun _ => some ("V")

/-- A Wayland-only environment whose clipboard offers a plain SVG type,
used by witnesses and counterexamples. -/
def envSvgOffered : Env :=
  { waylandDisplayVar := some ("wayland-0")
    wslDistroName := none
    wslInterop := none
    commandExists := fun c => c = "wl-paste"
    listEv := fun _ => .closed (some 0) ("image/svg+xml\n") ("")
    readEv := fun _ _ => .closed (some 0) [60, 115] ("")
    gunzip := fun _ => .error ("zlib error")
    convEv := .closed (some 0) ("") ("")
    convWrites := none
    psEv := .closed (some 2) ("") ("")
    psWrites := []
    wslpathOf := fun _ => none
    tmpEmfLinux := "/tmp/pastevector_1.emf"
    tmpEmfWsl := "/tmp/pastevector_2.emf"
    preferBackend := .auto
    destinationTemplate := "image.$\x7bfileExtName\x7d"
    docDir := "/doc"
    docBase := "notes"
    unixTime := "100" }

/-- The same environment but offering an enhanced-metafile type (ahead
of a raster type) while `emf2svg-conv` is not on the search path. -/
def envEmfOffered : Env :=
  { envSvgOffered with listEv := fun _ => .closed (some 0) ("image/x-emf\nimage/png\n") ("") }

/-- An environment in which the WSL bridge is available and its script
reports an SVG written (exit code 12) having produced a non-empty file. -/
def envWslSvg : Env :=
  { envSvgOffered with
    wslDistroName := some ("Ubuntu")
    commandExists := fun _ => true
    wslpathOf := fun p => some p
    psEv := .closed (some 12) ("") ("")
    psWrites := [("/doc/image.svg", [60, 115, 118, 103])] }

/-- Claim C5: for every input buffer on which the gunzip library reports
an error (the buffer is not validly compressed), `maybeGunzip` resolves
with the original buffer unchanged, and for every buffer the library
decompresses it resolves with the decompressed bytes; the return type is
not fallible, so the routine never throws or rejects to the caller. -/
theorem C5_maybeGunzip_fallback (gunzip : List Nat → Except String (List Nat)) (buf : List Nat) :
    (∀ e, gunzip buf = .error e → maybeGunzip gunzip buf = buf) ∧
    (∀ out, gunzip buf = .ok out → maybeGunzip gunzip buf = out) := by
  constructor <;> intro x h <;> simp [maybeGunzip, h]

theorem C5_maybeGunzip_fallback_witness :
    ((fun (_ : List Nat) => (Except.error ("zlib error") : Except String (List Nat))) [1, 2] =
        .error ("zlib error") →
      maybeGunzip (fun _ => .error ("zlib error")) [1, 2] = [1, 2]) ∧
    maybeGunzip (fun _ => (Except.ok [9] : Except String (List Nat))) [1, 2] = [9] :=
  ⟨fun h => (C5_maybeGunzip_fallback (fun _ => .error ("zlib error")) [1, 2]).1 ("zlib error") h,
    (C5_maybeGunzip_fallback (fun _ => .ok [9]) [1, 2]).2 [9] rfl⟩

/-- Claim C7: if a spawned subprocess has not exited by the timeout, the
runners resolve with the synthetic exit code `-1` and a diagnostic
carrying the timeout duration while still returning the output captured
before the kill; on a spawn error they resolve with code `-1` and the
spawn error text; the settled value is total (the promise never hangs or
rejects) and the synthetic code is a failure (distinct from exit 0). -/
theorem C7_runner_timeout_spawn (cmd : String) (args : List String) (timeoutMs : Nat)
    (sOut sErr msg : String) (bOut : List Nat) :
    runText cmd args timeoutMs (.timedOut sOut sErr) =
      ⟨some (-1), sOut, sErr ++ "\n[TIMEOUT " ++ toString timeoutMs ++ "ms]"⟩ ∧
    runText cmd args timeoutMs (.spawnFailed msg sOut sErr) =
      ⟨some (-1), sOut, sErr ++ "\n[SPAWN ERROR] " ++ msg⟩ ∧
    runBin cmd args timeoutMs (.timedOut bOut sErr) =
      ⟨some (-1), bOut, sErr ++ "\n[TIMEOUT " ++ toString timeoutMs ++ "ms]"⟩ ∧
    runBin cmd args timeoutMs (.spawnFailed msg bOut sErr) =
      ⟨some (-1), bOut, sErr ++ "\n[SPAWN ERROR] " ++ msg⟩ ∧
    (some (-1) : Option Int) ≠ some 0 :=
  ⟨rfl, rfl, rfl, rfl, by decide⟩

/-- Claim C8: the backend adapter's `readType` fails if and only if the
underlying clipboard read process did not exit with code zero or
produced zero output bytes; otherwise it returns exactly the bytes read. -/
theorem C8_readType_failure_iff (env : Env) (bk : BackendKind) (rawType : String) :
    (isError (readType env bk rawType) = true ↔
      ((runBin (readCmd bk) (readArgs bk rawType) T_READ_MS (env.readEv bk rawType)).code ≠ some 0 ∨
        (runBin (readCmd bk) (readArgs bk rawType) T_READ_MS (env.readEv bk rawType)).bytes = [])) ∧
    ((runBin (readCmd bk) (readArgs bk rawType) T_READ_MS (env.readEv bk rawType)).code = some 0 →
      (runBin (readCmd bk) (readArgs bk rawType) T_READ_MS (env.readEv bk rawType)).bytes ≠ [] →
      readType env bk rawType =
        .ok (runBin (readCmd bk) (readArgs bk rawType) T_READ_MS (env.readEv bk rawType)).bytes) := by
  constructor
  · by_cases h : (runBin (readCmd bk) (readArgs bk rawType) T_READ_MS (env.readEv bk rawType)).code ≠ some 0 ∨
        (runBin (readCmd bk) (readArgs bk rawType) T_READ_MS (env.readEv bk rawType)).bytes = [] <;>
      simp [readType, h, isError]
  · intro h1 h2
    simp [readType, h1, h2]

theorem C8_readType_failure_iff_witness :
    readType envSvgOffered .wayland ("image/svg+xml") =
      .ok (runBin (readCmd .wayland) (readArgs .wayland ("image/svg+xml")) T_READ_MS
        (envSvgOffered.readEv .wayland ("image/svg+xml"))).bytes :=
  (C8_readType_failure_iff envSvgOffered .wayland ("image/svg+xml")).2 rfl (by decide)

lemma pickFirst_eq_none_iff (offered : List OfferedType) :
    ∀ bases, pickFirst offered bases = none ↔ ∀ b ∈ bases, ∀ t ∈ offered, ¬ t.base = b := by
  intro bases
  induction bases with
  | nil => simp [pickFirst]
  | cons b rest ih =>
    simp only [pickFirst]
    cases hf : offered.find? (fun t => t.base = b) with
    | some hit =>
      simp only [List.mem_cons]
      constructor
      · intro h; exact absurd h (by simp)
      · intro h
        have hmem := List.mem_of_find?_eq_some hf
        have hbase := List.find?_some hf
        simp at hbase
        exact absurd hbase (h b (Or.inl rfl) hit hmem)
    | none =>
      have hall := List.find?_eq_none.mp hf
      simp at hall
      simp [ih]
      intro _
      exact hall

/-- Claim C1: handler resolution is a strict priority search over the
fixed registration order (svg, svgz, emf, png, jpg): whenever the
offered-type list contains both a type whose base is in a vector
handler's match-base list and a type whose base is in a raster handler's
match-base list, resolution returns a vector handler (name `svg`, `svgz`
or `emf`); in particular the offered bases `image/png` and
`image/svg+xml` resolve to the svg handler, never the png handler. -/
theorem C1_vector_priority (offered : List OfferedType) (t₁ t₂ : OfferedType)
    (h₁ : t₁ ∈ offered) (h₂ : t₂ ∈ offered)
    (hv : t₁.base ∈ vectorBases) (hr : t₂.base ∈ rasterBases) :
    (∃ p : LinuxHandler × OfferedType, resolveHandler LINUX_HANDLERS offered = some p ∧
      p.1.name ∈ (["svg", "svgz", "emf"] : List String)) ∧
    (resolveHandler LINUX_HANDLERS
        [⟨"image/png", "image/png"⟩, ⟨"image/svg+xml", "image/svg+xml"⟩]).map
      (fun p => p.1.name) = some ("svg") := by
  refine ⟨?_, by rfl⟩
  cases h3 : pickFirst offered svgHandler.bases with
  | some t =>
    exact ⟨(svgHandler, t), by simp [resolveHandler, LINUX_HANDLERS, h3], by simp [svgHandler]⟩
  | none =>
    cases h4 : pickFirst offered svgzHandler.bases with
    | some t =>
      exact ⟨(svgzHandler, t), by simp [resolveHandler, LINUX_HANDLERS, h3, h4],
        by simp [svgzHandler]⟩
    | none =>
      cases h5 : pickFirst offered emfHandler.bases with
      | some t =>
        exact ⟨(emfHandler, t), by simp [resolveHandler, LINUX_HANDLERS, h3, h4, h5],
          by simp [emfHandler]⟩
      | none =>
        exfalso
        simp only [vectorBases, List.append_assoc, List.mem_append] at hv
        rcases hv with hsvg | hsvgz | hemf
        · exact (pickFirst_eq_none_iff offered svgHandler.bases).mp h3 _ hsvg t₁ h₁ rfl
        · exact (pickFirst_eq_none_iff offered svgzHandler.bases).mp h4 _ hsvgz t₁ h₁ rfl
        · exact (pickFirst_eq_none_iff offered emfHandler.bases).mp h5 _ hemf t₁ h₁ rfl

theorem C1_vector_priority_witness :
    (∃ p : LinuxHandler × OfferedType,
      resolveHandler LINUX_HANDLERS
        [⟨"image/png", "image/png"⟩, ⟨"image/svg+xml", "image/svg+xml"⟩] = some p ∧
      p.1.name ∈ (["svg", "svgz", "emf"] : List String)) ∧
    (resolveHandler LINUX_HANDLERS
        [⟨"image/png", "image/png"⟩, ⟨"image/svg+xml", "image/svg+xml"⟩]).map
      (fun p => p.1.name) = some ("svg") :=
  C1_vector_priority
    [⟨"image/png", "image/png"⟩, ⟨"image/svg+xml", "image/svg+xml"⟩]
    ⟨"image/svg+xml", "image/svg+xml"⟩ ⟨"image/png", "image/png"⟩
    (by simp) (by simp)
    (by simp [vectorBases, svgHandler, svgzHandler, emfHandler])
    (by simp [rasterBases, pngHandler, jpgHandler])

/-- Claim C6: the Wayland backend is included exactly when the
`WAYLAND_DISPLAY` marker is truthy and `wl-paste` resolves; the X11
backend exactly when `xclip` resolves (no environment prerequisite);
when both are usable, preference `wayland` yields `[wayland, x11]`,
`x11` yields `[x11, wayland]` and `auto` yields `[wayland, x11]`;
unusable backends are omitted from the returned list entirely. -/
theorem C6_backend_selection (env : Env) (prefer : Prefer) :
    (BackendKind.wayland ∈ getBackends env prefer ↔
      envTruthy env.waylandDisplayVar = true ∧ env.commandExists ("wl-paste") = true) ∧
    (BackendKind.x11 ∈ getBackends env prefer ↔ env.commandExists ("xclip") = true) ∧
    (envTruthy env.waylandDisplayVar = true ∧ env.commandExists ("wl-paste") = true ∧
        env.commandExists ("xclip") = true →
      getBackends env .wayland = [.wayland, .x11] ∧
      getBackends env .x11 = [.x11, .wayland] ∧
      getBackends env .auto = [.wayland, .x11]) := by
  cases hw : envTruthy env.waylandDisplayVar <;>
    cases hp : env.commandExists ("wl-paste") <;>
      cases hx : env.commandExists ("xclip") <;>
        cases prefer <;>
          simp [getBackends, hw, hp, hx]

theorem C6_backend_selection_witness :
    (BackendKind.wayland ∈ getBackends envWslSvg .auto ↔
      envTruthy envWslSvg.waylandDisplayVar = true ∧
        envWslSvg.commandExists ("wl-paste") = true) ∧
    (BackendKind.x11 ∈ getBackends envWslSvg .auto ↔
      envWslSvg.commandExists ("xclip") = true) ∧
    (envTruthy envWslSvg.waylandDisplayVar = true ∧
        envWslSvg.commandExists ("wl-paste") = true ∧
        envWslSvg.commandExists ("xclip") = true →
      getBackends envWslSvg .wayland = [.wayland, .x11] ∧
      getBackends envWslSvg .x11 = [.x11, .wayland] ∧
      getBackends envWslSvg .auto = [.wayland, .x11]) :=
  C6_backend_selection envWslSvg .auto

lemma braceSplit_all_append (name after : List Char) (h : ∀ c ∈ name, c ≠ '\x7d') :
    braceSplit (name ++ '\x7d' :: after) = some (name, after) := by
  induction name with
  | nil => simp [braceSplit]
  | cons c rest ih =>
    have hc : c ≠ '\x7d' := h c (by simp)
    simp only [List.cons_append, braceSplit, hc, if_false]
    rw [show rest.append ('\x7d' :: after) = rest ++ '\x7d' :: after from rfl,
      ih (fun x hx => h x (by simp [hx]))]
    rfl

lemma expandL_cons_ne (vars : String → Option String) (c : Char) (rest : List Char)
    (h : c ≠ '\x24') : expandL vars (c :: rest) = c :: expandL vars rest := by
  cases rest with
  | nil =>
    show expandFuel vars (Nat.succ 0) [c] = c :: expandL vars []
    rw [expandFuel.eq_3, if_neg h]
    rfl
  | cons d rest' =>
    show expandFuel vars (Nat.succ (d :: rest').length) (c :: d :: rest') =
      c :: expandL vars (d :: rest')
    rw [expandFuel.eq_4, if_neg h]
    rfl

lemma expandL_head_placeholder (vars : String → Option String) (name after : List Char)
    (h1 : name ≠ []) (h2 : ∀ x ∈ name, x ≠ '\x7d') :
    expandL vars ('\x24' :: '\x7b' :: (name ++ '\x7d' :: after)) =
      ((vars (String.mk name)).getD ("")).data ++ expandL vars after := by
  obtain ⟨n, ns, rfl⟩ := List.exists_cons_of_ne_nil h1
  have hb := braceSplit_all_append (n :: ns) after h2
  simp only [List.cons_append] at hb
  show expandFuel vars (Nat.succ ((n :: (ns ++ '\x7d' :: after)).length + 1))
      ('\x24' :: '\x7b' :: (n :: (ns ++ '\x7d' :: after))) =
    ((vars (String.mk (n :: ns))).getD ("")).data ++ expandL vars after
  rw [expandFuel.eq_4, if_pos rfl]
  rw [if_pos rfl, hb]
  show ((vars (String.mk (n :: ns))).getD ("")).data ++
      expandFuel vars ((n :: (ns ++ '\x7d' :: after)).length + 1) after =
    ((vars (String.mk (n :: ns))).getD ("")).data ++ expandFuel vars after.length after
  congr 1
  apply expandFuel_congr
  · simp
    omega
  · omega

lemma expandL_empty_name (vars : String → Option String) (rest : List Char) :
    expandL vars ('\x24' :: '\x7b' :: '\x7d' :: rest) =
      '\x24' :: '\x7b' :: '\x7d' :: expandL vars rest := by
  show expandFuel vars (Nat.succ (('\x7d' :: rest).length + 1))
      ('\x24' :: '\x7b' :: '\x7d' :: rest) = '\x24' :: '\x7b' :: '\x7d' :: expandL vars rest
  rw [expandFuel.eq_4, if_pos rfl]
  rw [if_pos rfl, show braceSplit ('\x7d' :: rest) = some ([], rest) from by simp [braceSplit]]
  show '\x24' :: expandFuel vars (Nat.succ (Nat.succ rest.length)) ('\x7b' :: '\x7d' :: rest) =
    '\x24' :: '\x7b' :: '\x7d' :: expandL vars rest
  rw [expandFuel.eq_4, if_neg (by decide)]
  show '\x24' :: '\x7b' :: expandL vars ('\x7d' :: rest) =
    '\x24' :: '\x7b' :: '\x7d' :: expandL vars rest
  rw [expandL_cons_ne vars _ _ (by decide)]

/-- Claim C9 counterexample: the template `${}` (a placeholder-shaped
occurrence with an empty name) is left verbatim by `expandTemplate`
under every binding of the name — here the empty map — rather than being
replaced by the empty string, so the output still contains a `${...}`
occurrence and differs from the empty string the claim requires. -/
theorem C9_counterexample :
    expandTemplate ("$\x7b\x7d") (fun _ => none) = "$\x7b\x7d" ∧
    ¬ expandTemplate ("$\x7b\x7d") (fun _ => none) = "" := by
  constructor
  · rfl
  · decide

lemma braceSplit_eq_none_of_no_close (l : List Char) (h : ∀ x ∈ l, x ≠ '\x7d') :
    braceSplit l = none := by
  induction l with
  | nil => rfl
  | cons c rest ih =>
    have hc : c ≠ '\x7d' := h c (by simp)
    simp [braceSplit, hc, ih (fun x hx => h x (by simp [hx]))]

lemma expandL_dollar_not_brace (vars : String → Option String) (d : Char) (tail : List Char)
    (h : d ≠ '\x7b') :
    expandL vars ('\x24' :: d :: tail) = '\x24' :: expandL vars (d :: tail) := by
  show expandFuel vars (Nat.succ ((d :: tail).length)) ('\x24' :: d :: tail) =
    '\x24' :: expandL vars (d :: tail)
  rw [expandFuel.eq_4, if_pos rfl, if_neg h]
  rfl

lemma expandL_dollar_unclosed (vars : String → Option String) (body : List Char)
    (h : ∀ x ∈ body, x ≠ '\x7d') :
    expandL vars ('\x24' :: '\x7b' :: body) = '\x24' :: '\x7b' :: expandL vars body := by
  have hb : braceSplit body = none := braceSplit_eq_none_of_no_close body h
  cases body with
  | nil => rfl
  | cons b body' =>
    show expandFuel vars (Nat.succ ((b :: body').length + 1)) ('\x24' :: '\x7b' :: b :: body') =
      '\x24' :: '\x7b' :: expandL vars (b :: body')
    rw [expandFuel.eq_4, if_pos rfl]
    rw [if_pos rfl, hb]
    show '\x24' :: expandFuel vars (Nat.succ (b :: body').length) ('\x7b' :: b :: body') =
      '\x24' :: '\x7b' :: expandL vars (b :: body')
    rw [show expandFuel vars (Nat.succ (b :: body').length) ('\x7b' :: b :: body') =
        expandL vars ('\x7b' :: b :: body') from rfl,
      expandL_cons_ne vars _ _ (by decide)]

lemma expandL_prefix_placeholder (vars : String → Option String) (pre name after : List Char)
    (h6 : ∀ x ∈ pre, x ≠ '\x24') (h1 : name ≠ []) (h2 : ∀ x ∈ name, x ≠ '\x7d') :
    expandL vars (pre ++ '\x24' :: '\x7b' :: (name ++ '\x7d' :: after)) =
      pre ++ ((vars (String.mk name)).getD ("")).data ++ expandL vars after := by
  induction pre with
  | nil => simpa using expandL_head_placeholder vars name after h1 h2
  | cons p ps ih =>
    have hp : p ≠ '\x24' := h6 p (by simp)
    rw [List.cons_append, expandL_cons_ne vars p _ hp,
      ih (fun x hx => h6 x (by simp [hx]))]
    simp

/-- Claim C9 as amended: `expandTemplate` replaces each `${name}`
placeholder whose name is non-empty and brace-free by the bound value
when the name is bound and by the empty string when it is unbound, it
never throws, and a `${}` with an empty name is not a placeholder and is
passed through verbatim.  The conjuncts fix the scan exhaustively over
every possible head of the remaining template: the empty template; a
complete `${name}` placeholder at the head (replaced); a literal `${}`
(passed through); a character other than a dollar (passed through); a
lone trailing dollar; a dollar not followed by an opening brace; and a
`${` whose remainder contains no closing brace at all (both passed
through).  These cases are exhaustive — after `'$' :: '{'` the remainder
either has no closing brace, or splits at its first closing brace into
an empty or a non-empty brace-free name — so together they determine the
result on every template by induction, and the final conjunct exhibits
that derivation once: a placeholder following any dollar-free prefix is
replaced in place. -/
theorem C9_expandTemplate_amended (vars : String → Option String)
    (name after tail body pre : List Char) (c d : Char)
    (h1 : name ≠ []) (h2 : ∀ x ∈ name, x ≠ '\x7d') (h3 : c ≠ '\x24') (h4 : d ≠ '\x7b')
    (h5 : ∀ x ∈ body, x ≠ '\x7d') (h6 : ∀ x ∈ pre, x ≠ '\x24') :
    expandL vars [] = [] ∧
    expandL vars ('\x24' :: '\x7b' :: (name ++ '\x7d' :: after)) =
      ((vars (String.mk name)).getD ("")).data ++ expandL vars after ∧
    expandL vars ('\x24' :: '\x7b' :: '\x7d' :: tail) =
      '\x24' :: '\x7b' :: '\x7d' :: expandL vars tail ∧
    expandL vars (c :: tail) = c :: expandL vars tail ∧
    expandL vars ['\x24'] = ['\x24'] ∧
    expandL vars ('\x24' :: d :: tail) = '\x24' :: expandL vars (d :: tail) ∧
    expandL vars ('\x24' :: '\x7b' :: body) = '\x24' :: '\x7b' :: expandL vars body ∧
    expandL vars (pre ++ '\x24' :: '\x7b' :: (name ++ '\x7d' :: after)) =
      pre ++ ((vars (String.mk name)).getD ("")).data ++ expandL vars after :=
  ⟨rfl, expandL_head_placeholder vars name after h1 h2, expandL_empty_name vars tail,
    expandL_cons_ne vars c tail h3, rfl, expandL_dollar_not_brace vars d tail h4,
    expandL_dollar_unclosed vars body h5,
    expandL_prefix_placeholder vars pre name after h6 h1 h2⟩

theorem C9_expandTemplate_amended_witness :
    expandL varsConst [] = [] ∧
    expandL varsConst ('\x24' :: '\x7b' :: (['a'] ++ '\x7d' :: ['b'])) =
      ((varsConst (String.mk ['a'])).getD ("")).data ++ expandL varsConst ['b'] ∧
    expandL varsConst ('\x24' :: '\x7b' :: '\x7d' :: ['b']) =
      '\x24' :: '\x7b' :: '\x7d' :: expandL varsConst ['b'] ∧
    expandL varsConst ('x' :: ['b']) = 'x' :: expandL varsConst ['b'] ∧
    expandL varsConst ['\x24'] = ['\x24'] ∧
    expandL varsConst ('\x24' :: '5' :: ['b']) = '\x24' :: expandL varsConst ('5' :: ['b']) ∧
    expandL varsConst ('\x24' :: '\x7b' :: ['q']) =
      '\x24' :: '\x7b' :: expandL varsConst ['q'] ∧
    expandL varsConst (['p'] ++ '\x24' :: '\x7b' :: (['a'] ++ '\x7d' :: ['b'])) =
      ['p'] ++ ((varsConst (String.mk ['a'])).getD ("")).data ++ expandL varsConst ['b'] :=
  C9_expandTemplate_amended varsConst ['a'] ['b'] ['b'] ['q'] ['p'] 'x' '5'
    (by decide) (by decide) (by decide) (by decide) (by decide) (by decide)

lemma collapseNl_skip (rest : List Char) :
    ∀ run, (∀ c ∈ run, isNlChar c = true) → collapseNl (run ++ rest) true = collapseNl rest true := by
  intro run
  induction run with
  | nil => intro _; rfl
  | cons c rs ih =>
    intro h
    have hc : isNlChar c = true := h c (by simp)
    simp only [List.cons_append, collapseNl, hc, if_pos rfl, if_true]
    exact ih (fun x hx => h x (by simp [hx]))

lemma collapseNl_true_false (rest : List Char) (h : headNotNl rest) :
    collapseNl rest true = collapseNl rest false := by
  cases rest with
  | nil => rfl
  | cons c r =>
    have hc : isNlChar c = false := h c rfl
    simp [collapseNl, hc]

lemma collapseNl_run (run rest : List Char) (h1 : run ≠ [])
    (h2 : ∀ c ∈ run, isNlChar c = true) (h3 : headNotNl rest) :
    collapseNl (run ++ rest) false = ' ' :: collapseNl rest false := by
  obtain ⟨c, rs, rfl⟩ := List.exists_cons_of_ne_nil h1
  have hc : isNlChar c = true := h2 c (by simp)
  have hstep : collapseNl (c :: rs ++ rest) false = ' ' :: collapseNl (rs ++ rest) true := by
    simp [collapseNl, hc]
  rw [hstep, collapseNl_skip rest rs (fun x hx => h2 x (by simp [hx])),
    collapseNl_true_false rest h3]

lemma collapseNl_mem :
    ∀ (l : List Char) (p : Bool) (x : Char), x ∈ collapseNl l p → isNlChar x = false := by
  intro l
  induction l with
  | nil => intro p x hx; simp [collapseNl] at hx
  | cons c rest ih =>
    intro p x hx
    by_cases hc : isNlChar c = true
    · cases p with
      | false =>
        rw [show collapseNl (c :: rest) false = ' ' :: collapseNl rest true from by
          simp [collapseNl, hc]] at hx
        rcases List.mem_cons.mp hx with h | h
        · subst h; decide
        · exact ih true x h
      | true =>
        rw [show collapseNl (c :: rest) true = collapseNl rest true from by
          simp [collapseNl, hc]] at hx
        exact ih true x hx
    · simp only [Bool.not_eq_true] at hc
      rw [show collapseNl (c :: rest) p = c :: collapseNl rest false from by
        simp [collapseNl, hc]] at hx
      rcases List.mem_cons.mp hx with h | h
      · subst h; exact hc
      · exact ih false x h

lemma collapseNl_noNl (l : List Char) (p : Bool) : hasBreakChar (collapseNl l p) = false := by
  simp only [hasBreakChar, List.any_eq_false]
  intro x hx
  simp [collapseNl_mem l p x hx]

lemma escBr_mem : ∀ (l : List Char) (x : Char), x ∈ escBr l → x ∈ l ∨ x = '\\' := by
  intro l
  induction l with
  | nil => intro x hx; simp [escBr] at hx
  | cons c rest ih =>
    intro x hx
    by_cases hc : c = ']'
    · rw [show escBr (c :: rest) = '\\' :: ']' :: escBr rest from by simp [escBr, hc]] at hx
      rcases List.mem_cons.mp hx with h | h
      · exact Or.inr h
      · rcases List.mem_cons.mp h with h2 | h2
        · exact Or.inl (by simp [hc, h2])
        · rcases ih x h2 with h3 | h3
          · exact Or.inl (by simp [h3])
          · exact Or.inr h3
    · rw [show escBr (c :: rest) = c :: escBr rest from by simp [escBr, hc]] at hx
      rcases List.mem_cons.mp hx with h | h
      · exact Or.inl (by simp [h])
      · rcases ih x h with h3 | h3
        · exact Or.inl (by simp [h3])
        · exact Or.inr h3

lemma escBr_noNl (l : List Char) (h : hasBreakChar l = false) :
    hasBreakChar (escBr l) = false := by
  simp only [hasBreakChar, List.any_eq_false] at h ⊢
  intro x hx
  rcases escBr_mem l x hx with h2 | h2
  · exact h x h2
  · subst h2; decide

lemma escBr_head (l : List Char) (d : Char) (ds : List Char) (h : escBr l = d :: ds) :
    d ≠ ']' := by
  cases l with
  | nil => simp [escBr] at h
  | cons c rest =>
    by_cases hc : c = ']'
    · simp [escBr, hc] at h
      rw [← h.1]
      decide
    · simp [escBr, hc] at h
      rw [← h.1]
      exact hc

lemma escBr_bracketsEscaped : ∀ l : List Char, bracketsEscaped (escBr l) = true := by
  intro l
  induction l with
  | nil => rfl
  | cons c rest ih =>
    by_cases hc : c = ']'
    · simp only [escBr, hc, if_pos rfl, if_true]
      simp [bracketsEscaped, ih]
    · simp only [escBr, hc, if_false, ite_false]
      cases hr : escBr rest with
      | nil => simp [bracketsEscaped, hc]
      | cons d ds =>
        have hd := escBr_head rest d ds hr
        rw [hr] at ih
        simp [bracketsEscaped, hd, hc, ih]

/-- Claim C10: `mdImage` trims the alt text; when the trimmed alt is
empty (including an all-whitespace alt) the result is exactly the bare
image link; otherwise the escaped trimmed alt is placed between the
brackets, where every maximal run of carriage returns, line feeds and
tabs has been replaced by a single space (third and fourth conjuncts:
the run and literal steps of that replacement) and every closing bracket
is escaped, so the alt segment contains no unescaped closing bracket and
no line break. -/
theorem C10_mdImage_shape (rel altText : String) :
    (jsTrim altText = "" → mdImage rel altText = "![](" ++ rel ++ ")") ∧
    (jsTrim altText ≠ "" →
      mdImage rel altText = "![" ++ escapeAltText (jsTrim altText) ++ "](" ++ rel ++ ")" ∧
      hasBreakChar (escapeAltText (jsTrim altText)).data = false ∧
      bracketsEscaped (escapeAltText (jsTrim altText)).data = true) ∧
    (∀ (run rest : List Char), run ≠ [] → (∀ c ∈ run, isNlChar c = true) → headNotNl rest →
      collapseNl (run ++ rest) false = ' ' :: collapseNl rest false) ∧
    (∀ (c : Char) (rest : List Char), isNlChar c = false →
      collapseNl (c :: rest) false = c :: collapseNl rest false) := by
  refine ⟨?_, ?_, collapseNl_run, ?_⟩
  · intro h
    simp [mdImage, h]
  · intro h
    refine ⟨by simp [mdImage, h], ?_, ?_⟩
    · show hasBreakChar (escBr (collapseNl (jsTrim altText).data false)) = false
      exact escBr_noNl _ (collapseNl_noNl _ _)
    · exact escBr_bracketsEscaped _
  · intro c rest h
    simp [collapseNl, h]

theorem C10_mdImage_shape_witness :
    mdImage ("img/x.svg") ("   ") = "![](" ++ "img/x.svg" ++ ")" ∧
    mdImage ("img/x.svg") ("a]\tb") =
      "![" ++ escapeAltText (jsTrim ("a]\tb")) ++ "](" ++ "img/x.svg" ++ ")" ∧
    hasBreakChar (escapeAltText (jsTrim ("a]\tb"))).data = false ∧
    bracketsEscaped (escapeAltText (jsTrim ("a]\tb"))).data = true ∧
    collapseNl (['\x0d', '\x0a'] ++ ['x']) false = ' ' :: collapseNl ['x'] false ∧
    collapseNl ('z' :: ['x']) false = 'z' :: collapseNl ['x'] false := by
  refine ⟨(C10_mdImage_shape ("img/x.svg") ("   ")).1 (by decide), ?_⟩
  have h2 := (C10_mdImage_shape ("img/x.svg") ("a]\tb")).2.1 (by decide)
  refine ⟨h2.1, h2.2.1, h2.2.2, ?_, ?_⟩
  · exact (C10_mdImage_shape ("img/x.svg") ("a]\tb")).2.2.1 ['\x0d', '\x0a'] ['x']
      (by decide) (by decide) (by intro c hc; simp at hc; subst hc; decide)
  · exact (C10_mdImage_shape ("img/x.svg") ("a]\tb")).2.2.2 'z' ['x'] (by decide)

lemma writeBytes_ok (fs : Fs) (p : String) (bytes : List Nat) (fs' : Fs)
    (h : writeBytes fs p bytes = .ok fs') :
    (statSafe fs' p).found = true ∧ 0 < (statSafe fs' p).size := by
  simp only [writeBytes] at h
  split at h
  · simp at h
  · rename_i hc
    simp at h
    subst h
    push_neg at hc
    refine ⟨?_, Nat.pos_of_ne_zero hc.2⟩
    cases hfound : (statSafe (fs.write p bytes) p).found
    · exact absurd hfound hc.1
    · rfl

lemma tryHandlers_ok_some (env : Env) (bk : BackendKind) (offered : List OfferedType) :
    ∀ (hs : List LinuxHandler) (fs : Fs) (r : LinuxResult) (fs' : Fs),
      tryHandlers env bk offered fs hs = .ok (some r, fs') →
      (statSafe fs' r.outAbs).found = true ∧ 0 < (statSafe fs' r.outAbs).size := by
  intro hs
  induction hs with
  | nil => intro fs r fs' h; simp [tryHandlers] at h
  | cons hd tl ih =>
    intro fs r fs' h
    rw [tryHandlers] at h
    split at h
    · exact ih fs r fs' h
    · rename_i t hp
      split at h
      · simp at h
      · rename_i bytes hread
        split at h
        · simp at h
        · rename_i fs₁ hrun
          have h' : (if (statSafe fs₁ (makeOutAbs env hd.ext)).found = false ∨
                (statSafe fs₁ (makeOutAbs env hd.ext)).size = 0 then
              (Except.error ("Linux handler " ++ hd.name ++ " produced empty output.") :
                Except String (Option LinuxResult × Fs))
            else .ok (some ⟨makeOutAbs env hd.ext, "linux-" ++ hd.name,
              backendName bk ++ "/" ++ t.base⟩, fs₁)) = .ok (some r, fs') := h
          split at h'
          · simp at h'
          · rename_i hc
            push_neg at hc
            injection h' with h''
            injection h'' with h1 h2
            injection h1 with h3
            subst h3
            subst h2
            show (statSafe fs₁ (makeOutAbs env hd.ext)).found = true ∧
              0 < (statSafe fs₁ (makeOutAbs env hd.ext)).size
            refine ⟨?_, Nat.pos_of_ne_zero hc.2⟩
            cases hf : (statSafe fs₁ (makeOutAbs env hd.ext)).found
            · exact absurd hf hc.1
            · rfl

lemma tryBackendsLoop_ok_some (env : Env) :
    ∀ (bks : List BackendKind) (fs : Fs) (r : LinuxResult) (fs' : Fs),
      tryBackendsLoop env fs bks = .ok (some r, fs') →
      (statSafe fs' r.outAbs).found = true ∧ 0 < (statSafe fs' r.outAbs).size := by
  intro bks
  induction bks with
  | nil => intro fs r fs' h; simp [tryBackendsLoop] at h
  | cons b rest ih =>
    intro fs r fs' h
    rw [tryBackendsLoop] at h
    cases hsplit : tryHandlers env b (listTypes env b) fs LINUX_HANDLERS with
    | error e => rw [hsplit] at h; simp at h
    | ok pr =>
      obtain ⟨ro, fs₁⟩ := pr
      cases ro with
      | some r₁ =>
        rw [hsplit] at h
        have h' : (Except.ok (some r₁, fs₁) : Except String (Option LinuxResult × Fs)) =
            .ok (some r, fs') := h
        injection h' with h''
        injection h'' with h1 h2
        injection h1 with h3
        subst h3
        subst h2
        exact tryHandlers_ok_some env b (listTypes env b) LINUX_HANDLERS fs _ _ hsplit
      | none =>
        rw [hsplit] at h
        exact ih fs₁ r fs' h

lemma wslExport_ok_some (env : Env) (outSvgAbs outPngAbs tmpEmfAbs : String) (fs : Fs)
    (k : WslExportKind) (fs' : Fs)
    (h : wslExportWindowsClipboard env outSvgAbs outPngAbs tmpEmfAbs fs = .ok (some k, fs')) :
    (statSafe fs' (wslKindPath k outSvgAbs outPngAbs tmpEmfAbs)).found = true ∧
      0 < (statSafe fs' (wslKindPath k outSvgAbs outPngAbs tmpEmfAbs)).size := by
  simp only [wslExportWindowsClipboard] at h
  split at h
  · simp at h
  · split at h
    · simp at h
    · split at h
      · split at h
        · split at h
          · rename_i hc
            injection h with h''
            injection h'' with h1 h2
            injection h1 with h3
            subst h3
            subst h2
            exact hc
          · simp at h
        · split at h
          · split at h
            · rename_i hc
              injection h with h''
              injection h'' with h1 h2
              injection h1 with h3
              subst h3
              subst h2
              exact hc
            · simp at h
          · split at h
            · split at h
              · rename_i hc
                injection h with h''
                injection h'' with h1 h2
                injection h1 with h3
                subst h3
                subst h2
                exact hc
              · simp at h
            · split at h
              · simp at h
              · simp at h
      · simp at h

/-- Claim C2: every path that reports a successful conversion outcome
corresponds to an output file that exists with size greater than zero at
the moment success is returned: `writeBytes` only returns when the
written file is present and non-empty (first conjunct), a successful
`tryLinuxClipboard` outcome names an output file that is present and
non-empty in the resulting filesystem (second conjunct), and a bridge
export kind is only reported when the file named by its success exit
code is present and non-empty (third conjunct). -/
theorem C2_success_nonempty :
    (∀ (fs : Fs) (p : String) (bytes : List Nat) (fs' : Fs),
      writeBytes fs p bytes = .ok fs' →
      (statSafe fs' p).found = true ∧ 0 < (statSafe fs' p).size) ∧
    (∀ (env : Env) (prefer : Prefer) (fs : Fs) (r : LinuxResult) (fs' : Fs),
      tryLinuxClipboard env prefer fs = .ok (some r, fs') →
      (statSafe fs' r.outAbs).found = true ∧ 0 < (statSafe fs' r.outAbs).size) ∧
    (∀ (env : Env) (outSvgAbs outPngAbs tmpEmfAbs : String) (fs : Fs) (k : WslExportKind)
        (fs' : Fs),
      wslExportWindowsClipboard env outSvgAbs outPngAbs tmpEmfAbs fs = .ok (some k, fs') →
      (statSafe fs' (wslKindPath k outSvgAbs outPngAbs tmpEmfAbs)).found = true ∧
        0 < (statSafe fs' (wslKindPath k outSvgAbs outPngAbs tmpEmfAbs)).size) :=
  ⟨writeBytes_ok,
    fun env prefer fs r fs' h =>
      tryBackendsLoop_ok_some env (getBackends env prefer) fs r fs' h,
    wslExport_ok_some⟩

theorem C2_success_nonempty_witness :
    ((statSafe [("/doc/a.svg", [7])] ("/doc/a.svg")).found = true ∧
      0 < (statSafe [("/doc/a.svg", [7])] ("/doc/a.svg")).size) ∧
    ((statSafe [("/doc/image.svg", [60, 115])] ("/doc/image.svg")).found = true ∧
      0 < (statSafe [("/doc/image.svg", [60, 115])] ("/doc/image.svg")).size) ∧
    ((statSafe [("/doc/image.svg", [60, 115, 118, 103])] ("/doc/image.svg")).found = true ∧
      0 < (statSafe [("/doc/image.svg", [60, 115, 118, 103])] ("/doc/image.svg")).size) :=
  ⟨C2_success_nonempty.1 [] ("/doc/a.svg") [7] [("/doc/a.svg", [7])] rfl,
    C2_success_nonempty.2.1 envSvgOffered .auto []
      ⟨"/doc/image.svg", "linux-svg", "wayland/image/svg+xml"⟩
      [("/doc/image.svg", [60, 115])] rfl,
    C2_success_nonempty.2.2 envWslSvg ("/doc/image.svg") ("/doc/image.png")
      ("/tmp/pastevector_2.emf") [] .svg [("/doc/image.svg", [60, 115, 118, 103])] rfl⟩

lemma tryHandlers_cons_none (env : Env) (bk : BackendKind) (offered : List OfferedType)
    (fs : Fs) (hd : LinuxHandler) (tl : List LinuxHandler)
    (h : pickFirst offered hd.bases = none) :
    tryHandlers env bk offered fs (hd :: tl) = tryHandlers env bk offered fs tl := by
  rw [tryHandlers, h]

lemma tryHandlers_cons_run_error (env : Env) (bk : BackendKind) (offered : List OfferedType)
    (fs : Fs) (hd : LinuxHandler) (tl : List LinuxHandler) (t : OfferedType) (bytes : List Nat)
    (e : String) (hp : pickFirst offered hd.bases = some t)
    (hread : readType env bk t.raw = .ok bytes)
    (hrun : hd.run env bytes (makeOutAbs env hd.ext) fs = .error e) :
    tryHandlers env bk offered fs (hd :: tl) = .error e := by
  rw [tryHandlers, hp]
  show (match readType env bk t.raw with
    | .error e => (Except.error e : Except String (Option LinuxResult × Fs))
    | .ok bytes =>
      match hd.run env bytes (makeOutAbs env hd.ext) fs with
      | .error e => .error e
      | .ok fs₁ =>
        let st := statSafe fs₁ (makeOutAbs env hd.ext)
        if st.found = false ∨ st.size = 0 then
          .error ("Linux handler " ++ hd.name ++ " produced empty output.")
        else .ok (some ⟨makeOutAbs env hd.ext, "linux-" ++ hd.name,
          backendName bk ++ "/" ++ t.base⟩, fs₁)) = .error e
  rw [hread]
  show (match hd.run env bytes (makeOutAbs env hd.ext) fs with
    | .error e => (Except.error e : Except String (Option LinuxResult × Fs))
    | .ok fs₁ =>
      let st := statSafe fs₁ (makeOutAbs env hd.ext)
      if st.found = false ∨ st.size = 0 then
        .error ("Linux handler " ++ hd.name ++ " produced empty output.")
      else .ok (some ⟨makeOutAbs env hd.ext, "linux-" ++ hd.name,
        backendName bk ++ "/" ++ t.base⟩, fs₁)) = .error e
  rw [hrun]

/-- Claim C3 counterexample: with the single usable backend offering an
enhanced-metafile type ahead of a PNG type and `emf2svg-conv` absent
from the search path, the native-backend attempt does not proceed to the
remaining candidates — the conversion failure throws out of the whole
handler/backend loop (first conjunct), even though the remaining raster
handlers alone would have succeeded on the very same offer list (second
conjunct). -/
theorem C3_counterexample :
    tryLinuxClipboard envEmfOffered .auto [] = .error ("emf2svg-conv not found in PATH.") ∧
    tryHandlers envEmfOffered .wayland (listTypes envEmfOffered .wayland) []
        (List.drop 3 LINUX_HANDLERS) =
      .ok (some ⟨"/doc/image.png", "linux-png", "wayland/image/png"⟩,
        [("/doc/image.png", [60, 115])]) :=
  ⟨rfl, rfl⟩

/-- Claim C3 as amended: when the enhanced-metafile handler is the
resolved handler during the native-backend attempt and `emf2svg-conv` is
absent from the search path, the failure is a conversion failure whose
diagnostic names the missing tool; the exception aborts the remaining
handlers and backends of the native-backend attempt (the whole attempt
returns this error), and the top-level orchestrator catches it, logs it,
and proceeds to the final default-paste fallback rather than aborting
the command. -/
theorem C3_missing_tool_amended (env : Env) (clipText : String) (fs : Fs) (t : OfferedType)
    (bytes : List Nat)
    (h1 : env.commandExists ("emf2svg-conv") = false)
    (h2 : jsTrim clipText = "")
    (h3 : isWSL env = false)
    (h4 : getBackends env env.preferBackend = [.wayland])
    (h5 : pickFirst (listTypes env .wayland) svgHandler.bases = none)
    (h6 : pickFirst (listTypes env .wayland) svgzHandler.bases = none)
    (h7 : pickFirst (listTypes env .wayland) emfHandler.bases = some t)
    (h8 : readType env .wayland t.raw = .ok bytes) :
    tryLinuxClipboard env env.preferBackend fs = .error ("emf2svg-conv not found in PATH.") ∧
    (pasteCommand env clipText fs).result = .finalDefaultPaste ∧
    "warn linux clipboard failed: emf2svg-conv not found in PATH." ∈
      (pasteCommand env clipText fs).warnings ∧
    (pasteCommand env clipText fs).linuxAttempted = true := by
  have hrunerr : emfHandler.run env bytes (makeOutAbs env emfHandler.ext) fs =
      .error ("emf2svg-conv not found in PATH.") := by
    simp [emfHandler, emfPathToSvg, h1]
  have hth : tryHandlers env .wayland (listTypes env .wayland) fs LINUX_HANDLERS =
      .error ("emf2svg-conv not found in PATH.") := by
    show tryHandlers env .wayland (listTypes env .wayland) fs
      (svgHandler :: svgzHandler :: emfHandler :: pngHandler :: jpgHandler :: []) = _
    rw [tryHandlers_cons_none env .wayland _ fs svgHandler _ h5,
      tryHandlers_cons_none env .wayland _ fs svgzHandler _ h6,
      tryHandlers_cons_run_error env .wayland _ fs emfHandler _ t bytes _ h7 h8 hrunerr]
  have hlin : tryLinuxClipboard env env.preferBackend fs =
      .error ("emf2svg-conv not found in PATH.") := by
    rw [tryLinuxClipboard, h4, tryBackendsLoop, hth]
  refine ⟨hlin, ?_, ?_, ?_⟩ <;>
    simp [pasteCommand, pasteStep1b, pasteSteps2to4, pasteStep3, tryWslWindowsClipboard,
      h2, h3, hlin]

theorem C3_missing_tool_amended_witness :
    tryLinuxClipboard envEmfOffered envEmfOffered.preferBackend [] =
      .error ("emf2svg-conv not found in PATH.") ∧
    (pasteCommand envEmfOffered ("") []).result = .finalDefaultPaste ∧
    "warn linux clipboard failed: emf2svg-conv not found in PATH." ∈
      (pasteCommand envEmfOffered ("") []).warnings ∧
    (pasteCommand envEmfOffered ("") []).linuxAttempted = true :=
  C3_missing_tool_amended envEmfOffered ("") [] ⟨"image/x-emf", "image/x-emf"⟩ [60, 115]
    rfl rfl rfl rfl rfl rfl rfl rfl

lemma pasteSteps2to4_shape (env : Env) (fs : Fs) (warns : List String) :
    (pasteSteps2to4 env fs warns).result ≠ .earlyDefaultPaste ∧
    (pasteSteps2to4 env fs warns).wslAttempted = true := by
  unfold pasteSteps2to4 pasteStep3
  split
  · simp
  · split <;> simp
  · split <;> simp

/-- Claim C4 counterexample: the trimmed clipboard text `<svg></svg>` is
non-empty and contains no whitespace character, yet the command does not
fall through to media negotiation — the SVG-as-text step handles it
first, so neither the bridge nor the Linux backends are attempted. -/
theorem C4_counterexample :
    containsWs ("<svg></svg>") = false ∧
    jsTrim ("<svg></svg>") ≠ "" ∧
    (pasteCommand envSvgOffered ("<svg></svg>") []).wslAttempted = false ∧
    (pasteCommand envSvgOffered ("<svg></svg>") []).linuxAttempted = false ∧
    (pasteCommand envSvgOffered ("<svg></svg>") []).result = .svgText ("/doc/image.svg") :=
  ⟨rfl, by decide, rfl, rfl, rfl⟩

/-- Claim C4 as amended: for clipboard text whose trimmed form is
non-empty and does not look like SVG, if the trimmed text contains a
whitespace character the command executes the editor's default paste
immediately and attempts no media negotiation; if it contains no
whitespace character, default text paste is not triggered at that step
and the command falls through to media negotiation (the bridge attempt
is entered). -/
theorem C4_text_paste_amended (env : Env) (clipText : String) (fs : Fs)
    (h1 : jsTrim clipText ≠ "") (h2 : looksLikeSvgText (jsTrim clipText) = false) :
    (containsWs (jsTrim clipText) = true →
      (pasteCommand env clipText fs).result = .earlyDefaultPaste ∧
      (pasteCommand env clipText fs).wslAttempted = false ∧
      (pasteCommand env clipText fs).linuxAttempted = false) ∧
    (containsWs (jsTrim clipText) = false →
      (pasteCommand env clipText fs).result ≠ .earlyDefaultPaste ∧
      (pasteCommand env clipText fs).wslAttempted = true) := by
  constructor
  · intro hws
    simp [pasteCommand, pasteStep1b, h1, h2, hws]
  · intro hws
    have hcmd : pasteCommand env clipText fs = pasteSteps2to4 env fs [] := by
      simp [pasteCommand, pasteStep1b, h1, h2, hws]
    rw [hcmd]
    exact ⟨(pasteSteps2to4_shape env fs []).1, (pasteSteps2to4_shape env fs []).2⟩

theorem C4_text_paste_amended_witness :
    ((pasteCommand envSvgOffered ("hello world") []).result = .earlyDefaultPaste ∧
      (pasteCommand envSvgOffered ("hello world") []).wslAttempted = false ∧
      (pasteCommand envSvgOffered ("hello world") []).linuxAttempted = false) ∧
    ((pasteCommand envSvgOffered ("CC(=O)Oc1ccccc1C(=O)O") []).result ≠ .earlyDefaultPaste ∧
      (pasteCommand envSvgOffered ("CC(=O)Oc1ccccc1C(=O)O") []).wslAttempted = true) :=
  ⟨(C4_text_paste_amended envSvgOffered ("hello world") [] (by decide) (by decide)).1
      (by decide),
    (C4_text_paste_amended envSvgOffered ("CC(=O)Oc1ccccc1C(=O)O") [] (by decide)
      (by decide)).2 (by decide)⟩
